import Mathlib

/-!
Verification of the RabbitAR hand-pose estimation and stabilization pipeline.

This file embeds, over the real numbers, the core logic of the repository:
the presence gate with hysteresis, the pose extractor (position, scale and
orientation-basis computation from hand landmarks), the viewport projector,
the per-detection-cycle state update of the prediction loop, and the
temporal smoother that blends the rendered pose toward the raw targets.
The embedded functions follow the source statement by statement; the
geometric three.js vector operations (sub, cross, normalize, lerp and the
quaternion construction) are transcribed from the three.js library that
the source calls into, with normalize keeping the zero-length guard of
divideScalar(length or 1).
-/

namespace RabbitAR

/-- A hand landmark in normalized image coordinates, as produced by the
hand landmarker: x and y in [0,1], z a relative depth. -/
structure Landmark where
  x : ℝ
  y : ℝ
  z : ℝ

/-- A detection result: 21 landmarks with fixed semantic indices
(0 wrist, 5 index MCP, 9 middle MCP, 17 pinky MCP). -/
def LandmarkSet := Fin 21 → Landmark

/-- three.js Vector3, embedded over the reals. -/
@[ext]
structure Vec3 where
  x : ℝ
  y : ℝ
  z : ℝ

namespace Vec3

/-- Componentwise subtraction (THREE.Vector3.subVectors). -/
def sub (a b : Vec3) : Vec3 := ⟨a.x - b.x, a.y - b.y, a.z - b.z⟩

/-- Scalar multiplication (THREE.Vector3.multiplyScalar). -/
def smul (c : ℝ) (v : Vec3) : Vec3 := ⟨c * v.x, c * v.y, c * v.z⟩

/-- Negation (THREE.Vector3.negate). -/
def neg (v : Vec3) : Vec3 := ⟨-v.x, -v.y, -v.z⟩

/-- Dot product. -/
def dot (a b : Vec3) : ℝ := a.x * b.x + a.y * b.y + a.z * b.z

/-- Cross product (THREE.Vector3.crossVectors). -/
def cross (a b : Vec3) : Vec3 :=
  ⟨a.y * b.z - a.z * b.y, a.z * b.x - a.x * b.z, a.x * b.y - a.y * b.x⟩

/-- Squared length. -/
def lengthSq (v : Vec3) : ℝ := v.x * v.x + v.y * v.y + v.z * v.z

/-- Euclidean length. -/
noncomputable def length (v : Vec3) : ℝ := Real.sqrt (lengthSq v)

/-- THREE.Vector3.normalize: divideScalar(length or 1), so the zero vector
is divided by 1 and stays the zero vector instead of producing NaN. -/
noncomputable def normalize (v : Vec3) : Vec3 :=
  smul (1 / (if length v = 0 then 1 else length v)) v

/-- THREE.Vector3.lerp: each component moves toward the target by the
fraction alpha. -/
def lerp (v target : Vec3) (alpha : ℝ) : Vec3 :=
  ⟨v.x + (target.x - v.x) * alpha,
   v.y + (target.y - v.y) * alpha,
   v.z + (target.z - v.z) * alpha⟩

end Vec3

/-- three.js Quaternion, embedded over the reals. -/
@[ext]
structure Quat where
  x : ℝ
  y : ℝ
  z : ℝ
  w : ℝ

namespace Quat

/-- Quaternion length. -/
noncomputable def length (q : Quat) : ℝ :=
  Real.sqrt (q.x * q.x + q.y * q.y + q.z * q.z + q.w * q.w)

/-- THREE.Quaternion.normalize: the zero quaternion becomes the identity,
otherwise each component is divided by the length. -/
noncomputable def qnormalize (q : Quat) : Quat :=
  if length q = 0 then ⟨0, 0, 0, 1⟩
  else ⟨q.x * (1 / length q), q.y * (1 / length q),
        q.z * (1 / length q), q.w * (1 / length q)⟩

/-- JavaScript Number.EPSILON, kept as its exact value 2 to the power -52. -/
noncomputable def numberEpsilon : ℝ := (2 : ℝ) ^ (-52 : ℤ)

/-- THREE.Quaternion.slerp, transcribed branch by branch. -/
noncomputable def slerp (q qb : Quat) (t : ℝ) : Quat :=
  if t = 0 then q
  else if t = 1 then qb
  else
    let cos0 := q.w * qb.w + q.x * qb.x + q.y * qb.y + q.z * qb.z
    let qb2 := if cos0 < 0 then (⟨-qb.x, -qb.y, -qb.z, -qb.w⟩ : Quat) else qb
    let cosHalfTheta := if cos0 < 0 then -cos0 else cos0
    if 1 ≤ cosHalfTheta then q
    else
      let sqrSinHalfTheta := 1 - cosHalfTheta * cosHalfTheta
      if sqrSinHalfTheta ≤ numberEpsilon then
        let s := 1 - t
        qnormalize ⟨s * q.x + t * qb2.x, s * q.y + t * qb2.y,
                    s * q.z + t * qb2.z, s * q.w + t * qb2.w⟩
      else
        let halfTheta := Real.arccos cosHalfTheta
        let sinHalfTheta := Real.sqrt sqrSinHalfTheta
        let ratioA := Real.sin ((1 - t) * halfTheta) / sinHalfTheta
        let ratioB := Real.sin (t * halfTheta) / sinHalfTheta
        ⟨q.x * ratioA + qb2.x * ratioB, q.y * ratioA + qb2.y * ratioB,
         q.z * ratioA + qb2.z * ratioB, q.w * ratioA + qb2.w * ratioB⟩

end Quat

/-- THREE.Quaternion.setFromRotationMatrix applied to
Matrix4.makeBasis(X, Y, Z): the matrix columns are the basis vectors, so
m11 = X.x, m12 = Y.x, m13 = Z.x, m21 = X.y, and so on. -/
noncomputable def quatFromBasis (X Y Z : Vec3) : Quat :=
  let m11 := X.x; let m12 := Y.x; let m13 := Z.x
  let m21 := X.y; let m22 := Y.y; let m23 := Z.y
  let m31 := X.z; let m32 := Y.z; let m33 := Z.z
  let trace := m11 + m22 + m33
  if 0 < trace then
    let s := 0.5 / Real.sqrt (trace + 1)
    ⟨(m32 - m23) * s, (m13 - m31) * s, (m21 - m12) * s, 0.25 / s⟩
  else if m22 < m11 ∧ m33 < m11 then
    let s := 2 * Real.sqrt (1 + m11 - m22 - m33)
    ⟨0.25 * s, (m12 + m21) / s, (m13 + m31) / s, (m32 - m23) / s⟩
  else if m33 < m22 then
    let s := 2 * Real.sqrt (1 + m22 - m11 - m33)
    ⟨(m12 + m21) / s, 0.25 * s, (m23 + m32) / s, (m13 - m31) / s⟩
  else
    let s := 2 * Real.sqrt (1 + m33 - m11 - m22)
    ⟨(m13 + m31) / s, (m23 + m32) / s, 0.25 * s, (m21 - m12) / s⟩

/-- PresenceState: the debounced visibility flag together with the time of
the last positive detection (isHandDetectedRef and lastDetectionTimeRef in
the source). Timestamps are rationals (milliseconds). -/
structure GateState where
  detected : Bool
  lastDetectedAtMs : ℚ

/-- The hysteresis window in milliseconds (the literal 50 in the source). -/
def HYSTERESIS_MS : ℚ := 50

/-- One presence-gate update: a positive detection records the time and
raises the flag immediately; a miss lowers the flag only when the elapsed
time since the last recorded detection strictly exceeds the hysteresis
window, and never touches the recorded time. -/
def gateUpdate (hasDetection : Bool) (now : ℚ) (s : GateState) : GateState :=
  if hasDetection then { detected := true, lastDetectedAtMs := now }
  else if s.detected = true ∧ HYSTERESIS_MS < now - s.lastDetectedAtMs then
    { s with detected := false }
  else s

/-- Configuration of a detection cycle: whether the video is mirrored
(front camera) and the viewport aspect ratio. -/
structure Config where
  isMirrored : Bool
  aspect : ℝ

noncomputable section

/-- The wrist / middle-knuckle anchor blend ratio; the source fixes it
at 0 (pure wrist). -/
def ratio : ℝ := 0

/-- Horizontal anchor coordinate in normalized image space. -/
def palmX (lm : LandmarkSet) : ℝ := (lm 0).x * (1 - ratio) + (lm 9).x * ratio

/-- Vertical anchor coordinate in normalized image space. -/
def palmY (lm : LandmarkSet) : ℝ := (lm 0).y * (1 - ratio) + (lm 9).y * ratio

/-- Device-space horizontal coordinate: mirrored mode reflects the
normalized coordinate before mapping [0,1] onto [-1,1]. -/
def xCoord3D (isMirrored : Bool) (px : ℝ) : ℝ :=
  if isMirrored then (1 - px) * 2 - 1 else px * 2 - 1

/-- The virtual camera distance (the literal 5 in the source). -/
def cameraDistance : ℝ := 5

/-- The vertical field of view in degrees (the literal 50 in the source). -/
def fov : ℝ := 50

/-- Vertical field of view in radians. -/
def vFov : ℝ := fov * Real.pi / 180

/-- Visible world height at the reference depth. -/
def viewHeight : ℝ := 2 * Real.tan (vFov / 2) * cameraDistance

/-- Visible world width at the reference depth. -/
def viewWidth (aspect : ℝ) : ℝ := viewHeight * aspect

/-- The raw world position target: build the device-space vector
(x3, y3, -10), then scale x by width/2 and y by height/2; the z component
is the fixed placement depth -10 of the source. -/
def rawPosition (cfg : Config) (lm : LandmarkSet) : Vec3 :=
  let vector : Vec3 :=
    ⟨xCoord3D cfg.isMirrored (palmX lm), -(palmY lm * 2 - 1) + 1, -10⟩
  ⟨vector.x * (viewWidth cfg.aspect / 2), vector.y * (viewHeight / 2), vector.z⟩

/-- Hand size proxy: distance between wrist and middle-finger MCP computed
from the x and y coordinates only, exactly as in the source. -/
def handSize (lm : LandmarkSet) : ℝ :=
  Real.sqrt (((lm 0).x - (lm 9).x) * ((lm 0).x - (lm 9).x) +
             ((lm 0).y - (lm 9).y) * ((lm 0).y - (lm 9).y))

/-- The scale multiplier (the literal 12 in the source). -/
def scaleMultiplier : ℝ := 12

/-- The raw isotropic scale target. -/
def rawScale (lm : LandmarkSet) : ℝ := handSize lm * scaleMultiplier

/-- The scale target vector set on all three axes. -/
def rawScaleVec (lm : LandmarkSet) : Vec3 := ⟨rawScale lm, rawScale lm, rawScale lm⟩

/-- The getVector helper of the source: mirror-correct the x coordinate,
flip y, negate z, and multiply x and z by the aspect ratio. -/
def getVector (cfg : Config) (p : Landmark) : Vec3 :=
  ⟨(if cfg.isMirrored then 1 - p.x else p.x) * cfg.aspect, -p.y, (-p.z) * cfg.aspect⟩

def vWrist (cfg : Config) (lm : LandmarkSet) : Vec3 := getVector cfg (lm 0)

def vMiddle (cfg : Config) (lm : LandmarkSet) : Vec3 := getVector cfg (lm 9)

def vIndex (cfg : Config) (lm : LandmarkSet) : Vec3 := getVector cfg (lm 5)

def vPinky (cfg : Config) (lm : LandmarkSet) : Vec3 := getVector cfg (lm 17)

/-- Finger direction pointing toward the user: wrist minus middle MCP. -/
def vecToUser (cfg : Config) (lm : LandmarkSet) : Vec3 :=
  Vec3.sub (vWrist cfg lm) (vMiddle cfg lm)

/-- Lateral palm axis: index MCP to pinky MCP, normalized. -/
def palmAcross (cfg : Config) (lm : LandmarkSet) : Vec3 :=
  Vec3.normalize (Vec3.sub (vPinky cfg lm) (vIndex cfg lm))

/-- Finger direction pointing away from the user, normalized. -/
def fingerDir (cfg : Config) (lm : LandmarkSet) : Vec3 :=
  Vec3.normalize (Vec3.sub (vMiddle cfg lm) (vWrist cfg lm))

/-- Palm normal, canonicalized to point toward the camera. -/
def palmNormal (cfg : Config) (lm : LandmarkSet) : Vec3 :=
  let pn := Vec3.normalize (Vec3.cross (palmAcross cfg lm) (fingerDir cfg lm))
  if pn.z < 0 then Vec3.neg pn else pn

/-- Horizontal-plane projection of the toward-user vector. -/
def flatForward0 (cfg : Config) (lm : LandmarkSet) : Vec3 :=
  ⟨(vecToUser cfg lm).x, 0, (vecToUser cfg lm).z⟩

/-- The forward vector after the vertical-hand fallback: when the
horizontal projection is shorter than the 0.01 squared-length threshold,
substitute the horizontal projection of the palm normal. -/
def flatForwardFinal (cfg : Config) (lm : LandmarkSet) : Vec3 :=
  if Vec3.lengthSq (flatForward0 cfg lm) < 0.01 then
    ⟨(palmNormal cfg lm).x, 0, (palmNormal cfg lm).z⟩
  else flatForward0 cfg lm

/-- The normalized forward vector (target Z before re-orthogonalization). -/
def targetZ0 (cfg : Config) (lm : LandmarkSet) : Vec3 :=
  Vec3.normalize (flatForwardFinal cfg lm)

/-- The fixed world-up target Y axis. -/
def targetYv : Vec3 := ⟨0, 1, 0⟩

/-- Target X axis: normalized cross of up and forward. -/
def targetXv (cfg : Config) (lm : LandmarkSet) : Vec3 :=
  Vec3.normalize (Vec3.cross targetYv (targetZ0 cfg lm))

/-- Re-orthogonalized target Z axis: normalized cross of X and up. -/
def targetZv (cfg : Config) (lm : LandmarkSet) : Vec3 :=
  Vec3.normalize (Vec3.cross (targetXv cfg lm) targetYv)

/-- The raw rotation target: the quaternion of the basis matrix. -/
def rawRotation (cfg : Config) (lm : LandmarkSet) : Quat :=
  quatFromBasis (targetXv cfg lm) targetYv (targetZv cfg lm)

/-- Outcome of one detector invocation: a hand with landmarks, no hand, or
an exception thrown by the detector. -/
inductive DetectOutcome where
  | found (lm : LandmarkSet)
  | noHand
  | threw

/-- State owned by the prediction loop: the presence gate and the three
raw pose target references read by the smoother. -/
structure LoopState where
  gate : GateState
  posTarget : Vec3
  scaleTarget : Vec3
  rotTarget : Quat

/-- One detection cycle of predictWebcam. A positive detection records the
time, raises the presence flag and overwrites all three raw targets; a
no-hand result only runs the hysteresis logic; a thrown detector exception
is caught by the surrounding try/catch and the cycle changes nothing. -/
def cycle (cfg : Config) (outcome : DetectOutcome) (now : ℚ) (s : LoopState) : LoopState :=
  match outcome with
  | .found lm =>
      { gate := gateUpdate true now s.gate
        posTarget := rawPosition cfg lm
        scaleTarget := rawScaleVec lm
        rotTarget := rawRotation cfg lm }
  | .noHand => { s with gate := gateUpdate false now s.gate }
  | .threw => s

/-- The renderer-side smoothed pose held by HandTrackerGroup. -/
structure SmoothState where
  position : Vec3
  scale : Vec3
  quaternion : Quat

/-- One useFrame tick of HandTrackerGroup: lerp the position toward its
target with factor 0.2, the scale with factor 0.1, and slerp the
quaternion toward its target with factor 0.15. -/
def smootherTick (st : SmoothState) (posTarget scaleTarget : Vec3) (rotTarget : Quat) :
    SmoothState :=
  { position := Vec3.lerp st.position posTarget 0.2
    scale := Vec3.lerp st.scale scaleTarget 0.1
    quaternion := Quat.slerp st.quaternion rotTarget 0.15 }

/-- n smoother ticks against fixed raw targets. -/
def smootherIter (posTarget scaleTarget : Vec3) (rotTarget : Quat) :
    ℕ → SmoothState → SmoothState
  | 0, st => st
  | n + 1, st =>
      smootherTick (smootherIter posTarget scaleTarget rotTarget n st)
        posTarget scaleTarget rotTarget

/-- Euclidean distance between two vectors. -/
def dist3 (a b : Vec3) : ℝ := Vec3.length (Vec3.sub a b)

/-- Unmirrored configuration with a square viewport. -/
def cfgU : Config := ⟨false, 1⟩

/-- The end-to-end scenario landmark set of the spec: wrist (0.5,0.5,0),
middle MCP (0.5,0.4,0.05), index MCP (0.45,0.42,0.05), pinky MCP
(0.55,0.42,0.05); unused indices share the wrist value. -/
def lmC3 : LandmarkSet := fun i =>
  if i = 9 then ⟨0.5, 0.4, 0.05⟩
  else if i = 5 then ⟨0.45, 0.42, 0.05⟩
  else if i = 17 then ⟨0.55, 0.42, 0.05⟩
  else ⟨0.5, 0.5, 0⟩

/-- Landmark set whose wrist and middle MCP agree in x and y but differ
in depth. -/
def lmZ : LandmarkSet := fun i => if i = 9 then ⟨0, 0, 1⟩ else ⟨0, 0, 0⟩

/-- Fully degenerate landmark set: every landmark is the same point. -/
def lmP : LandmarkSet := fun _ => ⟨0.5, 0.5, 0⟩

/-- Landmark set with the wrist displaced horizontally from the other
points, giving a horizontal toward-user vector. -/
def lmW : LandmarkSet := fun i => if i = 0 then ⟨1, 0, 0⟩ else ⟨0, 0, 0⟩

/-- Landmark sets agreeing in x and y but not in z. -/
def lmA : LandmarkSet := fun _ => ⟨0.3, 0.6, 0⟩

def lmB : LandmarkSet := fun _ => ⟨0.3, 0.6, 1⟩

/-- Loop state before any detection: visibility false, the initial target
values of the source refs (position 0, scale 1, identity quaternion). -/
def s0 : LoopState := ⟨⟨false, 0⟩, ⟨0, 0, 0⟩, ⟨1, 1, 1⟩, ⟨0, 0, 0, 1⟩⟩

/-- Loop state with visibility on and a detection recorded at time 0. -/
def s1 : LoopState := ⟨⟨true, 0⟩, ⟨0, 0, 0⟩, ⟨1, 1, 1⟩, ⟨0, 0, 0, 1⟩⟩

/-- A smoothed state one world unit away from the origin in x. -/
def stW : SmoothState := ⟨⟨1, 0, 0⟩, ⟨1, 1, 1⟩, ⟨0, 0, 0, 1⟩⟩

end

section Helpers

theorem Vec3.length_eq (v : Vec3) (L : ℝ) (hL : 0 ≤ L)
    (h : Vec3.lengthSq v = L * L) : Vec3.length v = L := by
  rw [Vec3.length, h, Real.sqrt_mul_self hL]

theorem Vec3.normalize_of_lengthSq (v : Vec3) (L : ℝ) (hL : 0 < L)
    (h : Vec3.lengthSq v = L * L) : Vec3.normalize v = Vec3.smul (1 / L) v := by
  rw [Vec3.normalize, Vec3.length_eq v L hL.le h, if_neg hL.ne']

theorem Vec3.normalize_zero : Vec3.normalize ⟨0, 0, 0⟩ = ⟨0, 0, 0⟩ := by
  rw [Vec3.normalize]
  simp [Vec3.length, Vec3.lengthSq, Vec3.smul]

theorem Vec3.sub_self (v : Vec3) : Vec3.sub v v = ⟨0, 0, 0⟩ := by
  simp [Vec3.sub]

theorem flatForwardFinal_y (cfg : Config) (lm : LandmarkSet) :
    (flatForwardFinal cfg lm).y = 0 := by
  unfold flatForwardFinal
  split_ifs <;> rfl

theorem gateUpdate_false (now : ℚ) (g : GateState) :
    gateUpdate false now g =
      if g.detected = true ∧ HYSTERESIS_MS < now - g.lastDetectedAtMs then
        { g with detected := false }
      else g := by
  unfold gateUpdate
  simp

theorem gateUpdate_false_detected (now : ℚ) (g : GateState) (hdet : g.detected = true) :
    (gateUpdate false now g).detected = false ↔
      HYSTERESIS_MS < now - g.lastDetectedAtMs := by
  rw [gateUpdate_false]
  by_cases hlt : HYSTERESIS_MS < now - g.lastDetectedAtMs
  · simp [hdet, hlt]
  · simp [hdet, hlt]

theorem gateUpdate_false_gate_eq (now : ℚ) (g : GateState)
    (h : ¬(g.detected = true ∧ HYSTERESIS_MS < now - g.lastDetectedAtMs)) :
    gateUpdate false now g = g := by
  rw [gateUpdate_false, if_neg h]

end Helpers

/-- Claim C1 (confirmed): a detection call with a hand present sets
visibility to true immediately and records the detection time; a no-hand
call while visible flips visibility to false exactly when the elapsed time
since the last recorded detection strictly exceeds the 50 ms hysteresis
window, and not before. -/
theorem gate_hysteresis (cfg : Config) (lm : LandmarkSet) (now : ℚ) (s : LoopState) :
    (cycle cfg (DetectOutcome.found lm) now s).gate.detected = true ∧
    (cycle cfg (DetectOutcome.found lm) now s).gate.lastDetectedAtMs = now ∧
    (s.gate.detected = true →
      ((cycle cfg DetectOutcome.noHand now s).gate.detected = false ↔
        HYSTERESIS_MS < now - s.gate.lastDetectedAtMs)) := by
  refine ⟨rfl, rfl, fun hdet => ?_⟩
  exact gateUpdate_false_detected now s.gate hdet

/-- Witness for C1: from a visible state whose last detection was at time
0, a no-hand call at 40 ms leaves visibility true and one at 100 ms turns
it false. -/
theorem gate_hysteresis_witness :
    ((cycle cfgU DetectOutcome.noHand 40 s1).gate.detected = false ↔
      HYSTERESIS_MS < 40 - s1.gate.lastDetectedAtMs) ∧
    ((cycle cfgU DetectOutcome.noHand 100 s1).gate.detected = false ↔
      HYSTERESIS_MS < 100 - s1.gate.lastDetectedAtMs) ∧
    (cycle cfgU DetectOutcome.noHand 40 s1).gate.detected = true ∧
    (cycle cfgU DetectOutcome.noHand 100 s1).gate.detected = false := by
  refine ⟨(gate_hysteresis cfgU lmP 40 s1).2.2 rfl,
          (gate_hysteresis cfgU lmP 100 s1).2.2 rfl, ?_, ?_⟩
  · show (gateUpdate false 40 (⟨true, 0⟩ : GateState)).detected = true
    rw [gateUpdate_false]
    norm_num [HYSTERESIS_MS]
  · show (gateUpdate false 100 (⟨true, 0⟩ : GateState)).detected = false
    rw [gateUpdate_false]
    norm_num [HYSTERESIS_MS]

/-- Claim C2, amended (corrected): the raw scale equals 12 times the
image-plane distance computed from the x and y coordinates of the wrist
and middle-knuckle landmarks only; it is non-negative, and it is zero if
and only if the two landmarks coincide in x and y (their depths are
ignored by the code). -/
theorem scale_image_plane (lm : LandmarkSet) :
    rawScale lm =
      Real.sqrt (((lm 0).x - (lm 9).x) ^ 2 + ((lm 0).y - (lm 9).y) ^ 2) * 12 ∧
    0 ≤ rawScale lm ∧
    (rawScale lm = 0 ↔ ((lm 0).x = (lm 9).x ∧ (lm 0).y = (lm 9).y)) := by
  have harg : ((lm 0).x - (lm 9).x) * ((lm 0).x - (lm 9).x) +
      ((lm 0).y - (lm 9).y) * ((lm 0).y - (lm 9).y) =
      ((lm 0).x - (lm 9).x) ^ 2 + ((lm 0).y - (lm 9).y) ^ 2 := by ring
  refine ⟨?_, ?_, ?_⟩
  · unfold rawScale handSize scaleMultiplier
    rw [harg]
  · unfold rawScale handSize scaleMultiplier
    positivity
  · unfold rawScale handSize scaleMultiplier
    constructor
    · intro h
      have h12 : Real.sqrt (((lm 0).x - (lm 9).x) * ((lm 0).x - (lm 9).x) +
          ((lm 0).y - (lm 9).y) * ((lm 0).y - (lm 9).y)) = 0 := by
        rcases mul_eq_zero.mp h with h' | h'
        · exact h'
        · norm_num at h'
      have hS : ((lm 0).x - (lm 9).x) * ((lm 0).x - (lm 9).x) +
          ((lm 0).y - (lm 9).y) * ((lm 0).y - (lm 9).y) ≤ 0 :=
        Real.sqrt_eq_zero'.mp h12
      have hA : ((lm 0).x - (lm 9).x) * ((lm 0).x - (lm 9).x) = 0 :=
        le_antisymm (by nlinarith [mul_self_nonneg ((lm 0).y - (lm 9).y)])
          (mul_self_nonneg _)
      have hB : ((lm 0).y - (lm 9).y) * ((lm 0).y - (lm 9).y) = 0 :=
        le_antisymm (by nlinarith [mul_self_nonneg ((lm 0).x - (lm 9).x)])
          (mul_self_nonneg _)
      exact ⟨sub_eq_zero.mp (mul_self_eq_zero.mp hA),
             sub_eq_zero.mp (mul_self_eq_zero.mp hB)⟩
    · rintro ⟨hx, hy⟩
      rw [hx, hy]
      simp

/-- Counterexample for C2 as stated: with the wrist at (0,0,0) and the
middle knuckle at (0,0,1), the produced scale is 0 although the two
landmarks do not coincide, and 12 times their full 3D Euclidean distance
is 12, not the produced scale. -/
theorem scale_coincide_cex :
    rawScale lmZ = 0 ∧ lmZ 0 ≠ lmZ 9 ∧
    12 * Real.sqrt (((lmZ 0).x - (lmZ 9).x) ^ 2 + ((lmZ 0).y - (lmZ 9).y) ^ 2 +
        ((lmZ 0).z - (lmZ 9).z) ^ 2) ≠ rawScale lmZ := by
  have h0 : lmZ 0 = ⟨0, 0, 0⟩ := rfl
  have h9 : lmZ 9 = ⟨0, 0, 1⟩ := rfl
  have hsc : rawScale lmZ = 0 := by
    unfold rawScale handSize scaleMultiplier
    rw [h0, h9]
    norm_num [Real.sqrt_zero]
  refine ⟨hsc, ?_, ?_⟩
  · rw [h0, h9]
    simp only [ne_eq, Landmark.mk.injEq]
    norm_num
  · rw [hsc, h0, h9]
    norm_num [Real.sqrt_one]

/-- Claim C6 (confirmed): for a normalized horizontal coordinate nx in
[0,1], the mirrored device-space coordinate at nx equals the unmirrored
coordinate at 1 - nx, and equals the negation of the unmirrored
coordinate at nx. -/
theorem mirror_symmetry (nx : ℝ) (_h0 : 0 ≤ nx) (_h1 : nx ≤ 1) :
    xCoord3D true nx = xCoord3D false (1 - nx) ∧
    xCoord3D true nx = -(xCoord3D false nx) := by
  unfold xCoord3D
  constructor
  · simp
  · simp
    ring

/-- Witness for C6 at nx = 0.3: mirrored mode at 0.3 agrees with
unmirrored mode at 0.7 and with the negated unmirrored value at 0.3. -/
theorem mirror_symmetry_witness :
    xCoord3D true 0.3 = xCoord3D false 0.7 ∧
    xCoord3D true 0.3 = -(xCoord3D false 0.3) := by
  have h := mirror_symmetry (0.3 : ℝ) (by norm_num) (by norm_num)
  have h17 : (1 : ℝ) - 0.3 = 0.7 := by norm_num
  rw [h17] at h
  exact h

/-- Claim C7 (confirmed): the raw world position is
(x3 times width/2, y3 times height/2, -10) with y3 the offset inversion
of the claim, height equal to 2 times the camera distance 5 times the
tangent of half the 50 degree field of view, width equal to height times
the aspect ratio; and the result never depends on any landmark depth, so
the placement depth is the constant -10. -/
theorem viewport_projection (cfg : Config) (lm : LandmarkSet) :
    rawPosition cfg lm =
      ⟨xCoord3D cfg.isMirrored (palmX lm) *
          (2 * 5 * Real.tan (50 * Real.pi / 180 / 2) * cfg.aspect / 2),
        (-(palmY lm * 2 - 1) + 1) * (2 * 5 * Real.tan (50 * Real.pi / 180 / 2) / 2),
        -10⟩ ∧
    (∀ lm2 : LandmarkSet, (∀ i, (lm2 i).x = (lm i).x) → (∀ i, (lm2 i).y = (lm i).y) →
      rawPosition cfg lm2 = rawPosition cfg lm) := by
  constructor
  · unfold rawPosition viewWidth viewHeight vFov fov cameraDistance
    ext
    · simp only
      ring
    · simp only
      ring
    · rfl
  · intro lm2 hx hy
    unfold rawPosition palmX palmY
    rw [hx 0, hx 9, hy 0, hy 9]

/-- Witness for C7: two landmark sets that agree in x and y but differ in
every depth coordinate receive the same world position. -/
theorem viewport_projection_witness :
    rawPosition cfgU lmB = rawPosition cfgU lmA :=
  (viewport_projection cfgU lmA).2 lmB (fun _ => rfl) (fun _ => rfl)

/-- Claim C9, amended (corrected): a detector exception is caught and the
cycle does not crash, but it leaves the whole loop state, including the
presence state, unchanged; this coincides with a no-hand cycle only when
the no-hand cycle would itself leave the presence state unchanged, namely
when visibility is already false or the hysteresis window has not yet
elapsed. -/
theorem throw_caught_noop (cfg : Config) (now : ℚ) (s : LoopState) :
    cycle cfg DetectOutcome.threw now s = s ∧
    (s.gate.detected = false →
      cycle cfg DetectOutcome.threw now s = cycle cfg DetectOutcome.noHand now s) ∧
    (now - s.gate.lastDetectedAtMs ≤ HYSTERESIS_MS →
      cycle cfg DetectOutcome.threw now s = cycle cfg DetectOutcome.noHand now s) := by
  refine ⟨rfl, ?_, ?_⟩
  · intro hdet
    show s = { s with gate := gateUpdate false now s.gate }
    rw [gateUpdate_false_gate_eq now s.gate (by simp [hdet])]
  · intro hle
    show s = { s with gate := gateUpdate false now s.gate }
    rw [gateUpdate_false_gate_eq now s.gate (by simp [not_lt.mpr hle])]

/-- Witness for C9 amended: from the never-detected state, a thrown
detector call at 100 ms produces the same state as a no-hand call. -/
theorem throw_caught_noop_witness :
    cycle cfgU DetectOutcome.threw 100 s0 = cycle cfgU DetectOutcome.noHand 100 s0 :=
  (throw_caught_noop cfgU 100 s0).2.1 rfl

/-- Counterexample for C9 as stated: with visibility on and the last
detection recorded at time 0, a cycle at 100 ms whose detector throws
keeps visibility true, while a no-hand cycle at the same time turns
visibility false, so the two are not treated identically. -/
theorem throw_vs_nohand_cex :
    (cycle cfgU DetectOutcome.threw 100 s1).gate.detected = true ∧
    (cycle cfgU DetectOutcome.noHand 100 s1).gate.detected = false := by
  constructor
  · rfl
  · show (gateUpdate false 100 (⟨true, 0⟩ : GateState)).detected = false
    rw [gateUpdate_false]
    norm_num [HYSTERESIS_MS]

/-- Claim C10 (confirmed): a no-hand cycle never modifies the raw pose
targets and never refreshes the recorded detection time, and when
visibility is already false it changes no state at all. -/
theorem nohand_frame_effect (cfg : Config) (now : ℚ) (s : LoopState) :
    (cycle cfg DetectOutcome.noHand now s).posTarget = s.posTarget ∧
    (cycle cfg DetectOutcome.noHand now s).scaleTarget = s.scaleTarget ∧
    (cycle cfg DetectOutcome.noHand now s).rotTarget = s.rotTarget ∧
    (cycle cfg DetectOutcome.noHand now s).gate.lastDetectedAtMs =
      s.gate.lastDetectedAtMs ∧
    (s.gate.detected = false → cycle cfg DetectOutcome.noHand now s = s) := by
  refine ⟨rfl, rfl, rfl, ?_, ?_⟩
  · show (gateUpdate false now s.gate).lastDetectedAtMs = s.gate.lastDetectedAtMs
    rw [gateUpdate_false]
    split_ifs <;> rfl
  · intro hdet
    show { s with gate := gateUpdate false now s.gate } = s
    rw [gateUpdate_false_gate_eq now s.gate (by simp [hdet])]

/-- Witness for C10: from the never-detected state, a no-hand cycle at
100 ms is a complete no-op. -/
theorem nohand_frame_effect_witness :
    cycle cfgU DetectOutcome.noHand 100 s0 = s0 :=
  (nohand_frame_effect cfgU 100 s0).2.2.2.2 rfl

/-- Claim C4 (confirmed): whenever the flat-forward vector is
non-degenerate (the squared length of the horizontal toward-user
projection reaches the 0.01 threshold, or the palm-normal fallback is a
nonzero horizontal vector), the produced orientation basis is exactly
orthonormal: distinct axes have dot product 0 and every axis has
length 1. -/
theorem basis_orthonormal (cfg : Config) (lm : LandmarkSet)
    (h : 0.01 ≤ Vec3.lengthSq (flatForward0 cfg lm) ∨
         flatForwardFinal cfg lm ≠ ⟨0, 0, 0⟩) :
    Vec3.dot (targetXv cfg lm) targetYv = 0 ∧
    Vec3.dot (targetXv cfg lm) (targetZv cfg lm) = 0 ∧
    Vec3.dot targetYv (targetZv cfg lm) = 0 ∧
    Vec3.length (targetXv cfg lm) = 1 ∧
    Vec3.length targetYv = 1 ∧
    Vec3.length (targetZv cfg lm) = 1 := by
  have hy : (flatForwardFinal cfg lm).y = 0 := flatForwardFinal_y cfg lm
  have hne : flatForwardFinal cfg lm ≠ ⟨0, 0, 0⟩ := by
    rcases h with h1 | h1
    · unfold flatForwardFinal
      rw [if_neg (not_lt.mpr h1)]
      intro heq
      rw [heq] at h1
      unfold Vec3.lengthSq at h1
      norm_num at h1
    · exact h1
  set f := flatForwardFinal cfg lm with hfdef
  have hsum : f.x * f.x + f.z * f.z ≠ 0 := by
    intro h0
    apply hne
    have hxsq : f.x * f.x = 0 :=
      le_antisymm (by nlinarith [mul_self_nonneg f.z]) (mul_self_nonneg _)
    have hzsq : f.z * f.z = 0 :=
      le_antisymm (by nlinarith [mul_self_nonneg f.x]) (mul_self_nonneg _)
    refine Vec3.ext ?_ ?_ ?_
    · exact mul_self_eq_zero.mp hxsq
    · exact hy
    · exact mul_self_eq_zero.mp hzsq
  have hle : (0 : ℝ) ≤ f.x * f.x + f.z * f.z :=
    add_nonneg (mul_self_nonneg _) (mul_self_nonneg _)
  have hpos : 0 < f.x * f.x + f.z * f.z := lt_of_le_of_ne hle (Ne.symm hsum)
  have hL : 0 < Real.sqrt (f.x * f.x + f.z * f.z) := Real.sqrt_pos.mpr hpos
  set L := Real.sqrt (f.x * f.x + f.z * f.z) with hLdef
  have hLne : L ≠ 0 := hL.ne'
  have hL2 : L * L = f.x * f.x + f.z * f.z := Real.mul_self_sqrt hle
  have hZ0 : targetZ0 cfg lm = ⟨f.x / L, 0, f.z / L⟩ := by
    unfold targetZ0
    rw [← hfdef,
        Vec3.normalize_of_lengthSq f L hL (by unfold Vec3.lengthSq; rw [hy, hL2]; ring)]
    unfold Vec3.smul
    rw [hy]
    refine Vec3.ext ?_ ?_ ?_ <;> simp <;> ring
  have hcross1 : Vec3.cross targetYv ⟨f.x / L, 0, f.z / L⟩ = ⟨f.z / L, 0, -(f.x / L)⟩ := by
    unfold Vec3.cross targetYv
    refine Vec3.ext ?_ ?_ ?_ <;> simp
  have hXsq : Vec3.lengthSq ⟨f.z / L, 0, -(f.x / L)⟩ = 1 * 1 := by
    show (f.z / L) * (f.z / L) + (0 : ℝ) * 0 + (-(f.x / L)) * (-(f.x / L)) = 1 * 1
    have expand : (f.z / L) * (f.z / L) + (0 : ℝ) * 0 + (-(f.x / L)) * (-(f.x / L))
        = (f.x * f.x + f.z * f.z) / (L * L) := by ring
    rw [expand, ← hL2, div_self (mul_ne_zero hLne hLne)]
    norm_num
  have hX : targetXv cfg lm = ⟨f.z / L, 0, -(f.x / L)⟩ := by
    unfold targetXv
    rw [hZ0, hcross1, Vec3.normalize_of_lengthSq _ 1 one_pos hXsq]
    unfold Vec3.smul
    refine Vec3.ext ?_ ?_ ?_ <;> simp
  have hcross2 : Vec3.cross ⟨f.z / L, 0, -(f.x / L)⟩ targetYv = ⟨f.x / L, 0, f.z / L⟩ := by
    unfold Vec3.cross targetYv
    refine Vec3.ext ?_ ?_ ?_ <;> simp
  have hZsq : Vec3.lengthSq ⟨f.x / L, 0, f.z / L⟩ = 1 * 1 := by
    show (f.x / L) * (f.x / L) + (0 : ℝ) * 0 + (f.z / L) * (f.z / L) = 1 * 1
    have expand : (f.x / L) * (f.x / L) + (0 : ℝ) * 0 + (f.z / L) * (f.z / L)
        = (f.x * f.x + f.z * f.z) / (L * L) := by ring
    rw [expand, ← hL2, div_self (mul_ne_zero hLne hLne)]
    norm_num
  have hZ : targetZv cfg lm = ⟨f.x / L, 0, f.z / L⟩ := by
    unfold targetZv
    rw [hX, hcross2, Vec3.normalize_of_lengthSq _ 1 one_pos hZsq]
    unfold Vec3.smul
    refine Vec3.ext ?_ ?_ ?_ <;> simp
  refine ⟨?_, ?_, ?_, ?_, ?_, ?_⟩
  · rw [hX]
    show (f.z / L) * 0 + (0 : ℝ) * 1 + (-(f.x / L)) * 0 = 0
    ring
  · rw [hX, hZ]
    show (f.z / L) * (f.x / L) + (0 : ℝ) * 0 + (-(f.x / L)) * (f.z / L) = 0
    ring
  · rw [hZ]
    show (0 : ℝ) * (f.x / L) + 1 * 0 + 0 * (f.z / L) = 0
    ring
  · rw [hX]
    exact Vec3.length_eq _ 1 one_pos.le hXsq
  · exact Vec3.length_eq targetYv 1 one_pos.le
      (by show (0 : ℝ) * 0 + 1 * 1 + 0 * 0 = 1 * 1; norm_num)
  · rw [hZ]
    exact Vec3.length_eq _ 1 one_pos.le hZsq

/-- Witness for C4: a hand whose wrist is displaced horizontally from the
knuckles has a flat-forward squared length of 1, above the threshold, and
receives an exactly orthonormal basis. -/
theorem basis_orthonormal_witness :
    Vec3.dot (targetXv cfgU lmW) targetYv = 0 ∧
    Vec3.dot (targetXv cfgU lmW) (targetZv cfgU lmW) = 0 ∧
    Vec3.dot targetYv (targetZv cfgU lmW) = 0 ∧
    Vec3.length (targetXv cfgU lmW) = 1 ∧
    Vec3.length targetYv = 1 ∧
    Vec3.length (targetZv cfgU lmW) = 1 := by
  apply basis_orthonormal
  left
  have e0 : lmW 0 = ⟨1, 0, 0⟩ := rfl
  have e9 : lmW 9 = ⟨0, 0, 0⟩ := rfl
  have h0 : flatForward0 cfgU lmW = ⟨1, 0, 0⟩ := by
    unfold flatForward0 vecToUser vWrist vMiddle getVector cfgU Vec3.sub
    rw [e0, e9]
    refine Vec3.ext ?_ ?_ ?_ <;> simp
  rw [h0]
  show (0.01 : ℝ) ≤ 1 * 1 + 0 * 0 + 0 * 0
  norm_num

theorem cross_zero_left (v : Vec3) : Vec3.cross ⟨0, 0, 0⟩ v = ⟨0, 0, 0⟩ := by
  unfold Vec3.cross
  refine Vec3.ext ?_ ?_ ?_ <;> simp

theorem cross_zero_right (v : Vec3) : Vec3.cross v ⟨0, 0, 0⟩ = ⟨0, 0, 0⟩ := by
  unfold Vec3.cross
  refine Vec3.ext ?_ ?_ ?_ <;> simp

/-- When the four used landmarks coincide, every intermediate vector of
the orientation computation collapses to zero (three.js normalize keeps
the zero vector), the basis degenerates to X = 0, Y = (0,1,0), Z = 0, the
scale target is 0, and the quaternion of the degenerate basis is
(0, 0, 0, sqrt 2 / 2). -/
theorem degenerate_pipeline (cfg : Config) (lm : LandmarkSet)
    (h9 : lm 9 = lm 0) (h5 : lm 5 = lm 0) (h17 : lm 17 = lm 0) :
    rawScale lm = 0 ∧
    targetXv cfg lm = ⟨0, 0, 0⟩ ∧
    targetZv cfg lm = ⟨0, 0, 0⟩ ∧
    rawRotation cfg lm = ⟨0, 0, 0, Real.sqrt 2 / 2⟩ := by
  have hscale : rawScale lm = 0 := by
    unfold rawScale handSize scaleMultiplier
    rw [h9]
    norm_num [Real.sqrt_zero]
  have hsubU : vecToUser cfg lm = ⟨0, 0, 0⟩ := by
    unfold vecToUser vWrist vMiddle
    rw [h9]
    exact Vec3.sub_self _
  have hacross : palmAcross cfg lm = ⟨0, 0, 0⟩ := by
    unfold palmAcross vPinky vIndex
    rw [h17, h5, Vec3.sub_self, Vec3.normalize_zero]
  have hfd : fingerDir cfg lm = ⟨0, 0, 0⟩ := by
    unfold fingerDir vMiddle vWrist
    rw [h9, Vec3.sub_self, Vec3.normalize_zero]
  have hpn : palmNormal cfg lm = ⟨0, 0, 0⟩ := by
    simp only [palmNormal]
    rw [hacross, hfd, cross_zero_left, Vec3.normalize_zero]
    norm_num
  have hff0 : flatForward0 cfg lm = ⟨0, 0, 0⟩ := by
    unfold flatForward0
    rw [hsubU]
  have hfff : flatForwardFinal cfg lm = ⟨0, 0, 0⟩ := by
    unfold flatForwardFinal
    rw [hff0, hpn]
    norm_num [Vec3.lengthSq]
  have hz0 : targetZ0 cfg lm = ⟨0, 0, 0⟩ := by
    unfold targetZ0
    rw [hfff, Vec3.normalize_zero]
  have hx : targetXv cfg lm = ⟨0, 0, 0⟩ := by
    unfold targetXv
    rw [hz0, cross_zero_right, Vec3.normalize_zero]
  have hz : targetZv cfg lm = ⟨0, 0, 0⟩ := by
    unfold targetZv
    rw [hx, cross_zero_left, Vec3.normalize_zero]
  refine ⟨hscale, hx, hz, ?_⟩
  unfold rawRotation
  rw [hx, hz]
  unfold quatFromBasis targetYv
  have hs2 : Real.sqrt 2 ≠ 0 := (Real.sqrt_pos.mpr (by norm_num)).ne'
  norm_num
  ring_nf
  rw [inv_inv]

/-- Claim C5, amended (corrected): with the wrist, middle-knuckle,
index-knuckle and pinky-knuckle landmarks all coincident, the detection
call completes without error and without NaN, producing the explicit
finite values X = Z = 0, Y = (0,1,0), because the three.js normalize of a
zero vector is the zero vector; but the raw targets are not held: the
scale target is overwritten with (0,0,0) and the rotation target with the
quaternion (0, 0, 0, sqrt 2 / 2) of the degenerate basis. The smoothed
pose itself is untouched by the detection call, which only writes the
target references. -/
theorem degenerate_no_nan (cfg : Config) (now : ℚ) (s : LoopState) (lm : LandmarkSet)
    (h9 : lm 9 = lm 0) (h5 : lm 5 = lm 0) (h17 : lm 17 = lm 0) :
    (cycle cfg (DetectOutcome.found lm) now s).scaleTarget = ⟨0, 0, 0⟩ ∧
    (cycle cfg (DetectOutcome.found lm) now s).rotTarget = ⟨0, 0, 0, Real.sqrt 2 / 2⟩ ∧
    targetXv cfg lm = ⟨0, 0, 0⟩ ∧ targetYv = ⟨0, 1, 0⟩ ∧
    targetZv cfg lm = ⟨0, 0, 0⟩ := by
  obtain ⟨hs, hx, hz, hr⟩ := degenerate_pipeline cfg lm h9 h5 h17
  refine ⟨?_, ?_, hx, rfl, hz⟩
  · show rawScaleVec lm = _
    unfold rawScaleVec
    rw [hs]
  · exact hr

/-- Witness for C5 amended: the all-coincident landmark set at (0.5,0.5,0)
produces scale target 0 and the degenerate quaternion. -/
theorem degenerate_no_nan_witness :
    (cycle cfgU (DetectOutcome.found lmP) 0 s0).scaleTarget = ⟨0, 0, 0⟩ ∧
    (cycle cfgU (DetectOutcome.found lmP) 0 s0).rotTarget =
      ⟨0, 0, 0, Real.sqrt 2 / 2⟩ ∧
    targetXv cfgU lmP = ⟨0, 0, 0⟩ ∧ targetYv = ⟨0, 1, 0⟩ ∧
    targetZv cfgU lmP = ⟨0, 0, 0⟩ :=
  degenerate_no_nan cfgU 0 s0 lmP rfl rfl rfl

/-- Counterexample for C5 as stated: processing the all-coincident
landmark set does not leave the previously held targets unchanged; the
scale target (previously the initial (1,1,1)) becomes (0,0,0). -/
theorem degenerate_overwrites_cex :
    (cycle cfgU (DetectOutcome.found lmP) 0 s0).scaleTarget ≠ s0.scaleTarget := by
  have h := (degenerate_pipeline cfgU lmP rfl rfl rfl).1
  show rawScaleVec lmP ≠ s0.scaleTarget
  unfold rawScaleVec
  rw [h]
  show (⟨0, 0, 0⟩ : Vec3) ≠ (⟨1, 1, 1⟩ : Vec3)
  simp only [ne_eq, Vec3.mk.injEq]
  norm_num

/-- On the end-to-end scenario landmarks, the code computes the hand size
from x and y only, giving 0.1, so the scale is 0.1 times 12 = 1.2. -/
theorem rawScale_lmC3 : rawScale lmC3 = 1.2 := by
  have e0 : lmC3 0 = ⟨0.5, 0.5, 0⟩ := rfl
  have e9 : lmC3 9 = ⟨0.5, 0.4, 0.05⟩ := rfl
  unfold rawScale handSize scaleMultiplier
  rw [e0, e9]
  have h1 : ((⟨0.5, 0.5, 0⟩ : Landmark).x - (⟨0.5, 0.4, 0.05⟩ : Landmark).x) *
      ((⟨0.5, 0.5, 0⟩ : Landmark).x - (⟨0.5, 0.4, 0.05⟩ : Landmark).x) +
      ((⟨0.5, 0.5, 0⟩ : Landmark).y - (⟨0.5, 0.4, 0.05⟩ : Landmark).y) *
      ((⟨0.5, 0.5, 0⟩ : Landmark).y - (⟨0.5, 0.4, 0.05⟩ : Landmark).y) =
      (0.1 : ℝ) ^ 2 := by
    norm_num
  rw [h1, Real.sqrt_sq (by norm_num : (0 : ℝ) ≤ 0.1)]
  norm_num

/-- Claim C3, amended (corrected): on the landmark set with
wrist (0.5,0.5,0), middle knuckle (0.5,0.4,0.05), index knuckle
(0.45,0.42,0.05), pinky knuckle (0.55,0.42,0.05), unmirrored with aspect
ratio 1, the scale is exactly 0.1 times 12 = 1.2 (the code ignores z when
measuring hand size, so the value 0.1118 times 12 of the claim does not
occur), the horizontal world position is exactly 0, the near-vertical
finger direction makes the flat-forward squared length 0.0025 fall below
the 0.01 threshold so the palm-normal fallback branch is taken, and the
resulting forward axis is exactly (0,0,1). -/
theorem endToEnd_scenario :
    rawScale lmC3 = 1.2 ∧
    (rawPosition cfgU lmC3).x = 0 ∧
    Vec3.lengthSq (flatForward0 cfgU lmC3) < 0.01 ∧
    targetZv cfgU lmC3 = ⟨0, 0, 1⟩ := by
  have e0 : lmC3 0 = ⟨0.5, 0.5, 0⟩ := rfl
  have e9 : lmC3 9 = ⟨0.5, 0.4, 0.05⟩ := rfl
  have e5 : lmC3 5 = ⟨0.45, 0.42, 0.05⟩ := rfl
  have e17 : lmC3 17 = ⟨0.55, 0.42, 0.05⟩ := rfl
  have hvW : vWrist cfgU lmC3 = ⟨0.5, -0.5, 0⟩ := by
    unfold vWrist getVector cfgU
    rw [e0]
    refine Vec3.ext ?_ ?_ ?_ <;> norm_num
  have hvM : vMiddle cfgU lmC3 = ⟨0.5, -0.4, -0.05⟩ := by
    unfold vMiddle getVector cfgU
    rw [e9]
    refine Vec3.ext ?_ ?_ ?_ <;> norm_num
  have hvI : vIndex cfgU lmC3 = ⟨0.45, -0.42, -0.05⟩ := by
    unfold vIndex getVector cfgU
    rw [e5]
    refine Vec3.ext ?_ ?_ ?_ <;> norm_num
  have hvP : vPinky cfgU lmC3 = ⟨0.55, -0.42, -0.05⟩ := by
    unfold vPinky getVector cfgU
    rw [e17]
    refine Vec3.ext ?_ ?_ ?_ <;> norm_num
  have hsubPI : Vec3.sub (vPinky cfgU lmC3) (vIndex cfgU lmC3) = ⟨0.1, 0, 0⟩ := by
    rw [hvP, hvI]
    unfold Vec3.sub
    refine Vec3.ext ?_ ?_ ?_ <;> norm_num
  have hacross : palmAcross cfgU lmC3 = ⟨1, 0, 0⟩ := by
    unfold palmAcross
    rw [hsubPI, Vec3.normalize_of_lengthSq _ 0.1 (by norm_num)
      (by show (0.1 : ℝ) * 0.1 + 0 * 0 + 0 * 0 = 0.1 * 0.1; norm_num)]
    unfold Vec3.smul
    refine Vec3.ext ?_ ?_ ?_ <;> norm_num
  set s := Real.sqrt 0.0125 with hsdef
  have hs_pos : 0 < s := Real.sqrt_pos.mpr (by norm_num)
  have hs_ne : s ≠ 0 := hs_pos.ne'
  have hs_sq : s * s = 0.0125 := Real.mul_self_sqrt (by norm_num)
  have hsubMW : Vec3.sub (vMiddle cfgU lmC3) (vWrist cfgU lmC3) = ⟨0, 0.1, -0.05⟩ := by
    rw [hvM, hvW]
    unfold Vec3.sub
    refine Vec3.ext ?_ ?_ ?_ <;> norm_num
  have hfd : fingerDir cfgU lmC3 = ⟨0, 0.1 / s, -0.05 / s⟩ := by
    unfold fingerDir
    rw [hsubMW, Vec3.normalize_of_lengthSq _ s hs_pos
      (by show (0 : ℝ) * 0 + 0.1 * 0.1 + (-0.05) * (-0.05) = s * s; rw [hs_sq]; norm_num)]
    unfold Vec3.smul
    refine Vec3.ext ?_ ?_ ?_ <;> ring
  have hcrossAF : Vec3.cross ⟨1, 0, 0⟩ ⟨0, 0.1 / s, -0.05 / s⟩ =
      ⟨0, 0.05 / s, 0.1 / s⟩ := by
    unfold Vec3.cross
    refine Vec3.ext ?_ ?_ ?_ <;> ring
  have hpnsq : Vec3.lengthSq ⟨0, 0.05 / s, 0.1 / s⟩ = 1 * 1 := by
    show (0 : ℝ) * 0 + (0.05 / s) * (0.05 / s) + (0.1 / s) * (0.1 / s) = 1 * 1
    have expand : (0 : ℝ) * 0 + (0.05 / s) * (0.05 / s) + (0.1 / s) * (0.1 / s)
        = 0.0125 / (s * s) := by ring
    rw [expand, hs_sq]
    norm_num
  have hpn : palmNormal cfgU lmC3 = ⟨0, 0.05 / s, 0.1 / s⟩ := by
    simp only [palmNormal]
    rw [hacross, hfd, hcrossAF, Vec3.normalize_of_lengthSq _ 1 one_pos hpnsq]
    have hsm : Vec3.smul (1 / 1) ⟨0, 0.05 / s, 0.1 / s⟩ =
        (⟨0, 0.05 / s, 0.1 / s⟩ : Vec3) := by
      unfold Vec3.smul
      refine Vec3.ext ?_ ?_ ?_ <;> norm_num
    rw [hsm, if_neg ?hcond]
    case hcond =>
      show ¬((0.1 : ℝ) / s < 0)
      exact not_lt.mpr (div_nonneg (by norm_num) hs_pos.le)
  have hsubWM : vecToUser cfgU lmC3 = ⟨0, -0.1, 0.05⟩ := by
    unfold vecToUser
    rw [hvW, hvM]
    unfold Vec3.sub
    refine Vec3.ext ?_ ?_ ?_ <;> norm_num
  have hff0 : flatForward0 cfgU lmC3 = ⟨0, 0, 0.05⟩ := by
    unfold flatForward0
    rw [hsubWM]
  have hff0sq : Vec3.lengthSq (flatForward0 cfgU lmC3) < 0.01 := by
    rw [hff0]
    show (0 : ℝ) * 0 + 0 * 0 + 0.05 * 0.05 < 0.01
    norm_num
  have hfff : flatForwardFinal cfgU lmC3 = ⟨0, 0, 0.1 / s⟩ := by
    unfold flatForwardFinal
    rw [if_pos hff0sq, hpn]
  have hz0sq : Vec3.lengthSq ⟨0, 0, 0.1 / s⟩ = (0.1 / s) * (0.1 / s) := by
    show (0 : ℝ) * 0 + 0 * 0 + (0.1 / s) * (0.1 / s) = (0.1 / s) * (0.1 / s)
    ring
  have hdp : (0 : ℝ) < 0.1 / s := div_pos (by norm_num) hs_pos
  have hz0 : targetZ0 cfgU lmC3 = ⟨0, 0, 1⟩ := by
    unfold targetZ0
    rw [hfff, Vec3.normalize_of_lengthSq _ (0.1 / s) hdp hz0sq]
    unfold Vec3.smul
    refine Vec3.ext ?_ ?_ ?_
    · show (1 / (0.1 / s)) * 0 = 0
      ring
    · show (1 / (0.1 / s)) * 0 = 0
      ring
    · show (1 / (0.1 / s)) * (0.1 / s) = 1
      rw [one_div, inv_mul_cancel₀ hdp.ne']
  have hcrossYZ : Vec3.cross targetYv ⟨0, 0, 1⟩ = ⟨1, 0, 0⟩ := by
    unfold Vec3.cross targetYv
    refine Vec3.ext ?_ ?_ ?_ <;> norm_num
  have hxv : targetXv cfgU lmC3 = ⟨1, 0, 0⟩ := by
    unfold targetXv
    rw [hz0, hcrossYZ, Vec3.normalize_of_lengthSq _ 1 one_pos
      (by show (1 : ℝ) * 1 + 0 * 0 + 0 * 0 = 1 * 1; norm_num)]
    unfold Vec3.smul
    refine Vec3.ext ?_ ?_ ?_ <;> norm_num
  have hcrossXY : Vec3.cross ⟨1, 0, 0⟩ targetYv = ⟨0, 0, 1⟩ := by
    unfold Vec3.cross targetYv
    refine Vec3.ext ?_ ?_ ?_ <;> norm_num
  have hzv : targetZv cfgU lmC3 = ⟨0, 0, 1⟩ := by
    unfold targetZv
    rw [hxv, hcrossXY, Vec3.normalize_of_lengthSq _ 1 one_pos
      (by show (0 : ℝ) * 0 + 0 * 0 + 1 * 1 = 1 * 1; norm_num)]
    unfold Vec3.smul
    refine Vec3.ext ?_ ?_ ?_ <;> norm_num
  have hpx : (rawPosition cfgU lmC3).x = 0 := by
    unfold rawPosition xCoord3D palmX cfgU ratio
    rw [e0, e9]
    norm_num
  exact ⟨rawScale_lmC3, hpx, hff0sq, hzv⟩

/-- Counterexample for C3 as stated: on the scenario landmark set the
produced scale is 1.2, which is more than 0.1 away from the claimed
approximate value 1.34 = 0.1118 times 12, because the code measures the
wrist to middle-knuckle distance in the image plane only and ignores the
depth difference. -/
theorem endToEnd_scale_cex :
    rawScale lmC3 = 1.2 ∧ 0.1 < |rawScale lmC3 - 1.34| := by
  refine ⟨rawScale_lmC3, ?_⟩
  rw [rawScale_lmC3]
  rw [show (1.2 : ℝ) - 1.34 = -(0.14) by norm_num, abs_neg,
      abs_of_nonneg (by norm_num : (0 : ℝ) ≤ 0.14)]
  norm_num

theorem Vec3.sub_lerp (p t : Vec3) (a : ℝ) :
    Vec3.sub (Vec3.lerp p t a) t = Vec3.smul (1 - a) (Vec3.sub p t) := by
  unfold Vec3.lerp Vec3.sub Vec3.smul
  refine Vec3.ext ?_ ?_ ?_ <;> ring

theorem Vec3.lengthSq_smul (c : ℝ) (v : Vec3) :
    Vec3.lengthSq (Vec3.smul c v) = (c * c) * Vec3.lengthSq v := by
  show (c * v.x) * (c * v.x) + (c * v.y) * (c * v.y) + (c * v.z) * (c * v.z)
      = (c * c) * (v.x * v.x + v.y * v.y + v.z * v.z)
  ring

theorem Vec3.length_smul (c : ℝ) (v : Vec3) :
    Vec3.length (Vec3.smul c v) = |c| * Vec3.length v := by
  unfold Vec3.length
  rw [Vec3.lengthSq_smul, Real.sqrt_mul (mul_self_nonneg c),
      Real.sqrt_mul_self_eq_abs]

theorem Vec3.lerp_self (t : Vec3) (a : ℝ) : Vec3.lerp t t a = t := by
  unfold Vec3.lerp
  refine Vec3.ext ?_ ?_ ?_ <;> ring

theorem dist3_nonneg (a b : Vec3) : 0 ≤ dist3 a b := Real.sqrt_nonneg _

theorem dist3_lerp (p t : Vec3) (a : ℝ) (_h0 : 0 ≤ a) (h1 : a ≤ 1) :
    dist3 (Vec3.lerp p t a) t = (1 - a) * dist3 p t := by
  unfold dist3
  rw [Vec3.sub_lerp, Vec3.length_smul, abs_of_nonneg (by linarith)]

/-- Claim C8 (confirmed): feeding the same raw targets every display tick
multiplies the position distance to the target by 1 - 0.2 per tick and
the scale distance by 1 - 0.1 per tick, so the distance is
non-increasing, falls below any positive epsilon after enough ticks, and
a channel already equal to its target stays there. -/
theorem smoother_convergence (st : SmoothState) (posT scaleT : Vec3) (rotT : Quat) :
    (∀ st2 : SmoothState,
      dist3 ((smootherTick st2 posT scaleT rotT).position) posT =
        (1 - 0.2) * dist3 st2.position posT ∧
      dist3 ((smootherTick st2 posT scaleT rotT).scale) scaleT =
        (1 - 0.1) * dist3 st2.scale scaleT) ∧
    (∀ n, dist3 ((smootherIter posT scaleT rotT n st).position) posT =
        (1 - 0.2) ^ n * dist3 st.position posT) ∧
    (∀ n, dist3 ((smootherIter posT scaleT rotT n st).scale) scaleT =
        (1 - 0.1) ^ n * dist3 st.scale scaleT) ∧
    (∀ n, dist3 ((smootherIter posT scaleT rotT (n + 1) st).position) posT ≤
        dist3 ((smootherIter posT scaleT rotT n st).position) posT) ∧
    (∀ ε : ℝ, 0 < ε → ∃ N, ∀ n, N ≤ n →
        dist3 ((smootherIter posT scaleT rotT n st).position) posT < ε ∧
        dist3 ((smootherIter posT scaleT rotT n st).scale) scaleT < ε) ∧
    (st.position = posT → (smootherTick st posT scaleT rotT).position = posT) ∧
    (st.scale = scaleT → (smootherTick st posT scaleT rotT).scale = scaleT) := by
  have htickP : ∀ st2 : SmoothState,
      dist3 ((smootherTick st2 posT scaleT rotT).position) posT =
        (1 - 0.2) * dist3 st2.position posT := by
    intro st2
    show dist3 (Vec3.lerp st2.position posT 0.2) posT = _
    exact dist3_lerp _ _ _ (by norm_num) (by norm_num)
  have htickS : ∀ st2 : SmoothState,
      dist3 ((smootherTick st2 posT scaleT rotT).scale) scaleT =
        (1 - 0.1) * dist3 st2.scale scaleT := by
    intro st2
    show dist3 (Vec3.lerp st2.scale scaleT 0.1) scaleT = _
    exact dist3_lerp _ _ _ (by norm_num) (by norm_num)
  have hiterP : ∀ n, dist3 ((smootherIter posT scaleT rotT n st).position) posT =
      (1 - 0.2) ^ n * dist3 st.position posT := by
    intro n
    induction n with
    | zero =>
        show dist3 st.position posT = (1 - 0.2 : ℝ) ^ 0 * dist3 st.position posT
        rw [pow_zero, one_mul]
    | succ n ih =>
        have hstep : smootherIter posT scaleT rotT (n + 1) st =
            smootherTick (smootherIter posT scaleT rotT n st) posT scaleT rotT := rfl
        rw [hstep, htickP, ih]
        ring
  have hiterS : ∀ n, dist3 ((smootherIter posT scaleT rotT n st).scale) scaleT =
      (1 - 0.1) ^ n * dist3 st.scale scaleT := by
    intro n
    induction n with
    | zero =>
        show dist3 st.scale scaleT = (1 - 0.1 : ℝ) ^ 0 * dist3 st.scale scaleT
        rw [pow_zero, one_mul]
    | succ n ih =>
        have hstep : smootherIter posT scaleT rotT (n + 1) st =
            smootherTick (smootherIter posT scaleT rotT n st) posT scaleT rotT := rfl
        rw [hstep, htickS, ih]
        ring
  have hmono : ∀ n, dist3 ((smootherIter posT scaleT rotT (n + 1) st).position) posT ≤
      dist3 ((smootherIter posT scaleT rotT n st).position) posT := by
    intro n
    rw [hiterP (n + 1), hiterP n, pow_succ]
    have hd : 0 ≤ dist3 st.position posT := dist3_nonneg _ _
    have hp : (0 : ℝ) ≤ (1 - 0.2) ^ n := pow_nonneg (by norm_num) n
    nlinarith [mul_nonneg hp hd]
  have hconv : ∀ ε : ℝ, 0 < ε → ∃ N, ∀ n, N ≤ n →
      dist3 ((smootherIter posT scaleT rotT n st).position) posT < ε ∧
      dist3 ((smootherIter posT scaleT rotT n st).scale) scaleT < ε := by
    intro ε hε
    have hdP0 : 0 ≤ dist3 st.position posT := dist3_nonneg _ _
    have hdS0 : 0 ≤ dist3 st.scale scaleT := dist3_nonneg _ _
    set D := max (dist3 st.position posT) (dist3 st.scale scaleT) + 1 with hD
    have hmax0 : 0 ≤ max (dist3 st.position posT) (dist3 st.scale scaleT) :=
      le_trans hdP0 (le_max_left _ _)
    have hD0 : 0 < D := by rw [hD]; linarith
    have hε' : 0 < ε / D := div_pos hε hD0
    obtain ⟨N₁, hN₁⟩ := exists_pow_lt_of_lt_one hε' (by norm_num : (1 : ℝ) - 0.2 < 1)
    obtain ⟨N₂, hN₂⟩ := exists_pow_lt_of_lt_one hε' (by norm_num : (1 : ℝ) - 0.1 < 1)
    refine ⟨max N₁ N₂, fun n hn => ⟨?_, ?_⟩⟩
    · rw [hiterP n]
      have hle : (1 - 0.2 : ℝ) ^ n ≤ (1 - 0.2) ^ N₁ :=
        pow_le_pow_of_le_one (by norm_num) (by norm_num)
          (le_trans (le_max_left _ _) hn)
      have hlt : (1 - 0.2 : ℝ) ^ n < ε / D := lt_of_le_of_lt hle hN₁
      have hdlt : dist3 st.position posT < D := by
        rw [hD]
        have := le_max_left (dist3 st.position posT) (dist3 st.scale scaleT)
        linarith
      calc (1 - 0.2 : ℝ) ^ n * dist3 st.position posT
          ≤ (1 - 0.2) ^ n * D :=
            mul_le_mul_of_nonneg_left hdlt.le (pow_nonneg (by norm_num) n)
        _ < (ε / D) * D := mul_lt_mul_of_pos_right hlt hD0
        _ = ε := div_mul_cancel₀ ε hD0.ne'
    · rw [hiterS n]
      have hle : (1 - 0.1 : ℝ) ^ n ≤ (1 - 0.1) ^ N₂ :=
        pow_le_pow_of_le_one (by norm_num) (by norm_num)
          (le_trans (le_max_right _ _) hn)
      have hlt : (1 - 0.1 : ℝ) ^ n < ε / D := lt_of_le_of_lt hle hN₂
      have hdlt : dist3 st.scale scaleT < D := by
        rw [hD]
        have := le_max_right (dist3 st.position posT) (dist3 st.scale scaleT)
        linarith
      calc (1 - 0.1 : ℝ) ^ n * dist3 st.scale scaleT
          ≤ (1 - 0.1) ^ n * D :=
            mul_le_mul_of_nonneg_left hdlt.le (pow_nonneg (by norm_num) n)
        _ < (ε / D) * D := mul_lt_mul_of_pos_right hlt hD0
        _ = ε := div_mul_cancel₀ ε hD0.ne'
  refine ⟨fun st2 => ⟨htickP st2, htickS st2⟩, hiterP, hiterS, hmono, hconv, ?_, ?_⟩
  · intro h
    show Vec3.lerp st.position posT 0.2 = posT
    rw [h, Vec3.lerp_self]
  · intro h
    show Vec3.lerp st.scale scaleT 0.1 = scaleT
    rw [h, Vec3.lerp_self]

/-- Witness for C8: from the state one unit away in x with targets at the
origin and at its own scale, the distances fall below 1 after enough
ticks, and the already-converged scale channel is unchanged by a tick. -/
theorem smoother_convergence_witness :
    (∃ N, ∀ n, N ≤ n →
      dist3 ((smootherIter ⟨0, 0, 0⟩ ⟨1, 1, 1⟩ ⟨0, 0, 0, 1⟩ n stW).position)
          ⟨0, 0, 0⟩ < 1 ∧
      dist3 ((smootherIter ⟨0, 0, 0⟩ ⟨1, 1, 1⟩ ⟨0, 0, 0, 1⟩ n stW).scale)
          ⟨1, 1, 1⟩ < 1) ∧
    (smootherTick stW ⟨0, 0, 0⟩ ⟨1, 1, 1⟩ ⟨0, 0, 0, 1⟩).scale = ⟨1, 1, 1⟩ := by
  constructor
  · exact (smoother_convergence stW ⟨0, 0, 0⟩ ⟨1, 1, 1⟩
      ⟨0, 0, 0, 1⟩).2.2.2.2.1 1 (by norm_num)
  · exact (smoother_convergence stW ⟨0, 0, 0⟩ ⟨1, 1, 1⟩
      ⟨0, 0, 0, 1⟩).2.2.2.2.2.2 rfl

end RabbitAR
